import Mathlib

/-!
Shallow embedding of `response_fytter/hierarchical_bayes/backends.py`.

The module defines a `HierarchicalModel` base class (input-shape validation and
the subject-index normalizer `_get_subj_idx`), a Stan adapter
(`HierarchicalStanModel`: signal validation, a data dictionary with a 1-based
subject index, and trace-reshaping accessors) and a PyMC3 adapter
(`HierarchicalPymc3Model`: builds a PyMC3 model and samples, with no signal
validation of its own).

Subject identifiers and numeric cell values are modelled as `Int` (the code
accepts any comparable labels / real values; only comparison, equality and
reshaping matter for the verified properties).  Raised Python exceptions are
modelled by the `Err` type; the external MCMC engines are modelled as an
oracle argument (`EngineOutcome`), and each `sample` reports the state after
the call, the data handed to the engine when it was invoked, and the
exception raised, if any.
-/

/-- The kinds of exception the embedded code can raise.  The source raises
bare `Exception`s; the spec names them `InputShapeError`, `SignalShapeError`,
`NotSampledError` and `SamplingError`.  `indexError` models numpy's
`IndexError: tuple index out of range` on `.shape[0]` of a 0-d array, and
`typeError` models `TypeError: len() of unsized object` on a 0-d array. -/
inductive Err where
  | indexError
  | typeError
  | inputShapeError
  | signalShapeError
  | notSampledError
  | samplingError
deriving DecidableEq, Repr

/-- `pd.DataFrame(X)`: a design matrix with named columns, row-major values. -/
structure DesignMatrix where
  colNames : List String
  values : List (List Int)
deriving DecidableEq, Repr

/-- `self.X.shape[0]`: the number of rows of the design matrix. -/
def DesignMatrix.nrows (X : DesignMatrix) : Nat := X.values.length

/-- `self.X.shape[1]`: the number of columns of the design matrix. -/
def DesignMatrix.ncols (X : DesignMatrix) : Nat := X.colNames.length

/-- Insert `x` into an ascending duplicate-free list, keeping it ascending and
duplicate-free. Helper for `np_sort_unique`. -/
def insertUnique (x : Int) : List Int → List Int
  | [] => [x]
  | y :: ys => if x < y then x :: y :: ys else if x = y then y :: ys else y :: insertUnique x ys

/-- `np.sort(np.unique(a))`: the distinct values of `a` in ascending order
(`np.unique` already returns sorted distinct values; the outer `np.sort` is the
identity on them). -/
def np_sort_unique (l : List Int) : List Int := l.foldr insertUnique []

/-- `np.searchsorted(a, v)` (side `left`) on a sorted array: the index of the
first element of `a` that is `≥ v` (equal to `a.length` when there is none). -/
def np_searchsorted (a : List Int) (v : Int) : Nat := a.findIdx fun x => decide (v ≤ x)

/-- The state a successfully constructed `HierarchicalModel` carries:
`self.X`, `self.subject_ids`, and the three fields set by `_get_subj_idx`. -/
structure HierarchicalModel where
  X : DesignMatrix
  subject_ids : List Int
  unique_subject_ids : List Int
  n_subjects : Nat
  subj_idx : List Nat
deriving DecidableEq, Repr

/-- `HierarchicalModel._get_subj_idx`: computes `unique_subject_ids`,
`n_subjects` and `subj_idx` from `subject_ids`. -/
def get_subj_idx (subject_ids : List Int) : List Int × Nat × List Nat :=
  let u := np_sort_unique subject_ids
  (u, u.length, subject_ids.map (np_searchsorted u))

/-- `HierarchicalModel.__init__(X, subject_ids)`.
`np.array(subject_ids).squeeze()` turns a length-1 sequence into a 0-d array,
so the subsequent `.shape[0]` raises an `IndexError` before the shape check;
otherwise a length mismatch with `X.shape[0]` raises the shape `Exception`
(the spec's `InputShapeError`), and on success `_get_subj_idx` runs. -/
def HierarchicalModel.construct (X : DesignMatrix) (subject_ids : List Int) :
    Except Err HierarchicalModel :=
  if subject_ids.length = 1 then .error .indexError
  else if subject_ids.length ≠ X.nrows then .error .inputShapeError
  else
    let r := get_subj_idx subject_ids
    .ok { X := X, subject_ids := subject_ids,
          unique_subject_ids := r.1, n_subjects := r.2.1, subj_idx := r.2.2 }

/-- `HierarchicalModel.sample(signal, ...)`: `signal.squeeze()` turns a
length-1 signal into a 0-d array whose `len()` raises a `TypeError`; otherwise
a length mismatch with `X.shape[0]` raises the shape `Exception` (the spec's
`SignalShapeError`).  Returns `some e` when an exception `e` is raised. -/
def HierarchicalModel.sample (m : HierarchicalModel) (signal : List Int) : Option Err :=
  if signal.length = 1 then some .typeError
  else if signal.length ≠ m.X.nrows then some .signalShapeError
  else none

/-- The raw posterior draws a successful Stan sampling call stores in
`self.results`: `beta_subject` is draws × j × m, `beta_group` is draws × m. -/
structure StanResults where
  beta_subject : List (List (List Int))
  beta_group : List (List Int)
deriving DecidableEq, Repr

/-- The outcome of one call into an external MCMC engine: it either returns
a result or raises. -/
inductive EngineOutcome (ρ : Type) where
  | success (r : ρ)
  | failure
deriving DecidableEq, Repr

/-- `HierarchicalStanModel` state: the base fields plus `self.results`
(absent until a sampling call succeeds). -/
structure HierarchicalStanModel where
  base : HierarchicalModel
  results : Option StanResults
deriving DecidableEq, Repr

/-- `HierarchicalStanModel.__init__`: delegates to the base constructor and
loads or compiles the Stan program (an I/O concern with no bearing on the
model state); no `results` attribute exists yet. -/
def HierarchicalStanModel.construct (X : DesignMatrix) (subject_ids : List Int) :
    Except Err HierarchicalStanModel :=
  (HierarchicalModel.construct X subject_ids).map fun b => ⟨b, none⟩

/-- The `data` dictionary `HierarchicalStanModel.sample` hands to
`self.model.sampling`. -/
structure StanData where
  measure : List Int
  subj_idx : List Nat
  n : Nat
  j : Nat
  m : Nat
  X : List (List Int)
deriving DecidableEq, Repr

/-- What one call of an adapter `sample` method did: the state after the
call, the data the external engine was invoked with (`none` when it was not
invoked), and the exception raised (`none` on success). -/
structure SampleOutcome (σ δ : Type) where
  state : σ
  invoked : Option δ
  raised : Option Err
deriving DecidableEq, Repr

/-- `HierarchicalStanModel.sample(signal, ...)`: first the inherited
validation (`super().sample`); if it passes, the data dictionary is built
(`subj_idx` shifted to 1-based) and the engine invoked; `self.results` is
assigned only when the engine returns. -/
def HierarchicalStanModel.sample (st : HierarchicalStanModel) (signal : List Int)
    (engine : EngineOutcome StanResults) :
    SampleOutcome HierarchicalStanModel StanData :=
  match st.base.sample signal with
  | some e => ⟨st, none, some e⟩
  | none =>
    let d : StanData :=
      { measure := signal
        subj_idx := st.base.subj_idx.map (· + 1)
        n := st.base.X.nrows
        j := st.base.n_subjects
        m := st.base.X.ncols
        X := st.base.X.values }
    match engine with
    | .failure => ⟨st, some d, some .samplingError⟩
    | .success r => ⟨{ st with results := some r }, some d, none⟩

/-- A labeled wide table (`pd.DataFrame` with column labels of type `κ`). -/
structure DataFrame (κ : Type) (α : Type) where
  columns : List κ
  values : List (List α)
deriving DecidableEq, Repr

/-- Column `c` of a wide table, top to bottom (rows missing the position are
skipped, which never happens on a rectangular table). -/
def colValues (rows : List (List α)) (c : Nat) : List α :=
  rows.filterMap fun row => row[c]?

/-- Helper for `pd_melt`: stack the columns from position `c` on, each column
label paired with each of its cell values, column-major. -/
def meltCols (rows : List (List α)) : List κ → Nat → List (κ × α)
  | [], _ => []
  | k :: ks, c => (colValues rows c).map (fun v => (k, v)) ++ meltCols rows ks (c + 1)

/-- `pd.melt(df)`: the long form of a wide table — one `(variable, value)`
row per cell, stacked column by column. -/
def pd_melt (df : DataFrame κ α) : List (κ × α) := meltCols df.values df.columns 0

/-- `HierarchicalStanModel.get_subject_traces()` (wide form): raises when no
sampling call has succeeded; otherwise reshapes the draws × j × m
`beta_subject` array to draws × (j·m) (row-major, so each draw's j×m block is
flattened subject-major) under a `(subject_id, regressor)` product column
index. -/
def HierarchicalStanModel.get_subject_traces (st : HierarchicalStanModel) :
    Except Err (DataFrame (Int × String) Int) :=
  match st.results with
  | none => .error .notSampledError
  | some res =>
    .ok { columns := st.base.unique_subject_ids.flatMap fun s =>
            st.base.X.colNames.map fun r => (s, r)
          values := res.beta_subject.map List.flatten }

/-- `get_subject_traces(melt=True)`: the wide table passed through `pd.melt`. -/
def HierarchicalStanModel.get_subject_traces_melted (st : HierarchicalStanModel) :
    Except Err (List ((Int × String) × Int)) :=
  st.get_subject_traces.map pd_melt

/-- `HierarchicalStanModel.get_group_traces()` (wide form): raises when no
sampling call has succeeded; otherwise the draws × m `beta_group` array under
the design-matrix column names. -/
def HierarchicalStanModel.get_group_traces (st : HierarchicalStanModel) :
    Except Err (DataFrame String Int) :=
  match st.results with
  | none => .error .notSampledError
  | some res => .ok { columns := st.base.X.colNames, values := res.beta_group }

/-- `get_group_traces(melt=True)`: the wide table passed through `pd.melt`. -/
def HierarchicalStanModel.get_group_traces_melted (st : HierarchicalStanModel) :
    Except Err (List (String × Int)) :=
  st.get_group_traces.map pd_melt

/-- `HierarchicalStanModel.get_group_parameters()`: raises when no sampling
call has succeeded; its body does nothing else. -/
def HierarchicalStanModel.get_group_parameters (st : HierarchicalStanModel) :
    Except Err Unit :=
  match st.results with
  | none => .error .notSampledError
  | some _ => .ok ()

/-- The backend-defined trace object `pm.sample` returns. -/
structure PymcResults where
  trace : List (List Int)
deriving DecidableEq, Repr

/-- `HierarchicalPymc3Model` state: the base fields plus `self.results`. -/
structure HierarchicalPymc3Model where
  base : HierarchicalModel
  results : Option PymcResults
deriving DecidableEq, Repr

/-- `HierarchicalPymc3Model.__init__`: delegates to the base constructor and
does nothing else. -/
def HierarchicalPymc3Model.construct (X : DesignMatrix) (subject_ids : List Int) :
    Except Err HierarchicalPymc3Model :=
  (HierarchicalModel.construct X subject_ids).map fun b => ⟨b, none⟩

/-- What `HierarchicalPymc3Model.sample` feeds the PyMC3 model: the design
matrix, the 0-based subject index, the signal, and the subject count shaping
`subjectwise_offsets`. -/
structure PymcData where
  X : List (List Int)
  subj_idx : List Nat
  signal : List Int
  j : Nat
deriving DecidableEq, Repr

/-- `HierarchicalPymc3Model.sample(signal, ...)`: builds the PyMC3 model and
calls `pm.sample` directly — it never calls the inherited validation, so no
length check happens and the engine is always invoked; `self.results` is
assigned only when the engine returns. -/
def HierarchicalPymc3Model.sample (st : HierarchicalPymc3Model) (signal : List Int)
    (engine : EngineOutcome PymcResults) :
    SampleOutcome HierarchicalPymc3Model PymcData :=
  let d : PymcData :=
    { X := st.base.X.values
      subj_idx := st.base.subj_idx
      signal := signal
      j := st.base.n_subjects }
  match engine with
  | .failure => ⟨st, some d, some .samplingError⟩
  | .success r => ⟨{ st with results := some r }, some d, none⟩

/-! ### Properties of the subject-index normalizer -/

theorem mem_insertUnique {a x : Int} {l : List Int} :
    a ∈ insertUnique x l ↔ a = x ∨ a ∈ l := by
  induction l with
  | nil => simp [insertUnique]
  | cons y ys ih =>
    by_cases h1 : x < y
    · simp [insertUnique, h1]
    · by_cases h2 : x = y
      · subst h2
        simp [insertUnique, h1]
      · simp [insertUnique, h1, h2, ih]
        tauto

theorem sorted_insertUnique {x : Int} {l : List Int} (h : l.Sorted (· < ·)) :
    (insertUnique x l).Sorted (· < ·) := by
  induction l with
  | nil => simp [insertUnique]
  | cons y ys ih =>
    rw [List.sorted_cons] at h
    by_cases h1 : x < y
    · rw [insertUnique, if_pos h1, List.sorted_cons]
      refine ⟨?_, List.sorted_cons.mpr h⟩
      intro b hb
      rcases List.mem_cons.mp hb with rfl | hb
      · exact h1
      · exact h1.trans (h.1 b hb)
    · by_cases h2 : x = y
      · rw [insertUnique, if_neg h1, if_pos h2]
        exact List.sorted_cons.mpr h
      · have hyx : y < x := lt_of_le_of_ne (not_lt.mp h1) (Ne.symm h2)
        rw [insertUnique, if_neg h1, if_neg h2, List.sorted_cons]
        refine ⟨?_, ih h.2⟩
        intro b hb
        rcases mem_insertUnique.mp hb with rfl | hb
        · exact hyx
        · exact h.1 b hb

theorem sorted_np_sort_unique (l : List Int) : (np_sort_unique l).Sorted (· < ·) := by
  induction l with
  | nil => simp [np_sort_unique]
  | cons a t ih => exact sorted_insertUnique ih

theorem mem_np_sort_unique {a : Int} {l : List Int} : a ∈ np_sort_unique l ↔ a ∈ l := by
  induction l with
  | nil => simp [np_sort_unique]
  | cons b t ih =>
    show a ∈ insertUnique b (np_sort_unique t) ↔ _
    rw [mem_insertUnique, ih]
    simp

theorem np_searchsorted_mem :
    ∀ (a : List Int), a.Sorted (· < ·) → ∀ v ∈ a,
      np_searchsorted a v < a.length ∧ a.getD (np_searchsorted a v) 0 = v := by
  intro a
  induction a with
  | nil => intro _ v hv; simp at hv
  | cons y ys ih =>
    intro ha v hv
    rw [List.sorted_cons] at ha
    by_cases h : v ≤ y
    · have hvy : v = y := by
        rcases List.mem_cons.mp hv with h1 | h1
        · exact h1
        · exact absurd (ha.1 v h1) (not_lt.mpr h)
      simp [np_searchsorted, List.findIdx_cons, h]
      exact hvy.symm
    · have hyv : y < v := not_le.mp h
      have hv' : v ∈ ys := by
        rcases List.mem_cons.mp hv with h1 | h1
        · exact absurd (h1 ▸ hyv) (lt_irrefl v)
        · exact h1
      have := ih ha.2 v hv'
      rw [np_searchsorted] at this
      have hb : (fun x => decide (v ≤ x)) y = false := by simp [h]
      simp only [np_searchsorted, List.findIdx_cons, hb, cond_false]
      constructor
      · simpa using Nat.succ_lt_succ this.1
      · simpa using this.2

theorem getD_map_of_lt {α β : Type} {l : List α} (f : α → β) {i : Nat}
    (h : i < l.length) (d : β) (d0 : α) :
    (l.map f).getD i d = f (l.getD i d0) := by
  rw [List.getD_eq_getElem _ _ (by simpa using h), List.getD_eq_getElem _ _ h]
  simp

theorem construct_ok {X : DesignMatrix} {sids : List Int} {b : HierarchicalModel}
    (h : HierarchicalModel.construct X sids = .ok b) :
    b.X = X ∧ b.subject_ids = sids ∧
    b.unique_subject_ids = np_sort_unique sids ∧
    b.n_subjects = (np_sort_unique sids).length ∧
    b.subj_idx = sids.map (np_searchsorted (np_sort_unique sids)) ∧
    sids.length ≠ 1 ∧ sids.length = X.nrows := by
  unfold HierarchicalModel.construct at h
  by_cases h1 : sids.length = 1
  · rw [if_pos h1] at h
    simp at h
  · by_cases h2 : sids.length = X.nrows
    · rw [if_neg h1, if_neg (not_not_intro h2)] at h
      simp only [get_subj_idx, Except.ok.injEq] at h
      subst h
      exact ⟨rfl, rfl, rfl, rfl, rfl, h1, h2⟩
    · rw [if_neg h1, if_pos h2] at h
      simp at h

theorem construct_subj_idx_getD {X : DesignMatrix} {sids : List Int}
    {b : HierarchicalModel} (h : HierarchicalModel.construct X sids = .ok b)
    {i : Nat} (hi : i < b.subj_idx.length) :
    b.subj_idx.getD i 0 < b.n_subjects ∧
    b.unique_subject_ids.getD (b.subj_idx.getD i 0) 0 = b.subject_ids.getD i 0 := by
  obtain ⟨-, hsub, huniq, hn, hidx, -, -⟩ := construct_ok h
  have hi' : i < sids.length := by
    rw [hidx] at hi; simpa using hi
  have hgd : b.subj_idx.getD i 0 = np_searchsorted (np_sort_unique sids) (sids.getD i 0) := by
    rw [hidx]; exact getD_map_of_lt _ hi' 0 0
  have hmem : sids.getD i 0 ∈ np_sort_unique sids := by
    rw [mem_np_sort_unique, List.getD_eq_getElem _ _ hi']
    exact List.getElem_mem hi'
  have hs := np_searchsorted_mem (np_sort_unique sids) (sorted_np_sort_unique sids)
      (sids.getD i 0) hmem
  constructor
  · rw [hgd, hn]; exact hs.1
  · rw [hgd, huniq, hsub, hs.2]

/-! ### Properties of the wide/long reshaping -/

theorem colValues_cons {α : Type} (r : List α) (rest : List (List α)) (c : Nat) :
    colValues (r :: rest) c = (r[c]?).toList ++ colValues rest c := by
  cases h : r[c]? <;> simp [colValues, List.filterMap_cons, h]

theorem flatMap_append_perm {ι α : Type} (l : List ι) (f g : ι → List α) :
    List.Perm (l.flatMap fun i => f i ++ g i) (l.flatMap f ++ l.flatMap g) := by
  induction l with
  | nil => simp
  | cons a t ih =>
    simp only [List.flatMap_cons, List.append_assoc]
    refine List.Perm.append_left (f a) ?_
    have p1 : List.Perm (g a ++ t.flatMap fun i => f i ++ g i)
        (g a ++ (t.flatMap f ++ t.flatMap g)) := ih.append_left _
    have p3 := (@List.perm_append_comm _ (g a) (t.flatMap f)).append_right
        (t.flatMap g)
    exact p1.trans (by simpa only [List.append_assoc] using p3)

theorem flatMap_getElem_range {α : Type} (r : List α) :
    ((List.range r.length).flatMap fun c => (r[c]?).toList) = r := by
  induction r with
  | nil => simp
  | cons a t ih =>
    rw [List.length_cons, List.range_succ_eq_map, List.flatMap_cons, List.flatMap_map]
    simp only [List.getElem?_cons_zero, Option.toList_some, Function.comp_def,
      List.getElem?_cons_succ]
    rw [List.singleton_append]
    exact congrArg (a :: ·) ih

theorem flatMap_colValues_perm {α : Type} :
    ∀ (rows : List (List α)) (k : Nat), (∀ r ∈ rows, r.length = k) →
      List.Perm ((List.range k).flatMap (colValues rows)) rows.flatten := by
  intro rows
  induction rows with
  | nil => intro k _; simp [colValues]
  | cons r rest ih =>
    intro k hk
    have hr : r.length = k := hk r (List.mem_cons_self r rest)
    have h1 : ((List.range k).flatMap (colValues (r :: rest)))
        = (List.range k).flatMap fun c => (r[c]?).toList ++ colValues rest c :=
      congrArg (List.range k).flatMap (funext fun c => colValues_cons r rest c)
    rw [h1]
    refine (flatMap_append_perm (List.range k) _ _).trans ?_
    have h2 : ((List.range k).flatMap fun c => (r[c]?).toList) = r := by
      rw [← hr]; exact flatMap_getElem_range r
    rw [h2, List.flatten_cons]
    exact (ih k fun q hq => hk q (List.mem_cons_of_mem r hq)).append_left r

theorem meltCols_map_snd {κ α : Type} (rows : List (List α)) :
    ∀ (ks : List κ) (c : Nat),
      (meltCols rows ks c).map Prod.snd = (List.range' c ks.length).flatMap (colValues rows) := by
  intro ks
  induction ks with
  | nil => intro c; simp [meltCols]
  | cons k t ih =>
    intro c
    rw [meltCols, List.length_cons, List.range'_succ, List.flatMap_cons, List.map_append,
      List.map_map, ih]
    simp [Function.comp_def]

theorem pd_melt_values_perm {κ α : Type} (df : DataFrame κ α)
    (h : ∀ r ∈ df.values, r.length = df.columns.length) :
    List.Perm ((pd_melt df).map Prod.snd) df.values.flatten := by
  rw [pd_melt, meltCols_map_snd, ← List.range_eq_range']
  exact flatMap_colValues_perm df.values df.columns.length h

theorem flatten_getD {α : Type} :
    ∀ (M : List (List α)) (k : Nat), (∀ r ∈ M, r.length = k) →
      ∀ (s p : Nat), s < M.length → p < k → ∀ (d : α),
        M.flatten.getD (s * k + p) d = (M.getD s []).getD p d := by
  intro M
  induction M with
  | nil => intro k _ s p hs _ d; simp at hs
  | cons r rest ih =>
    intro k hk s p hs hp d
    have hr : r.length = k := hk r (List.mem_cons_self r rest)
    cases s with
    | zero =>
      rw [List.flatten_cons, Nat.zero_mul, Nat.zero_add,
        List.getD_append _ _ _ _ (by omega)]
      simp [List.getD_cons_zero]
    | succ s' =>
      rw [List.flatten_cons]
      have hidx : (s' + 1) * k + p = r.length + (s' * k + p) := by
        rw [hr, Nat.succ_mul]; omega
      rw [hidx, List.getD_append_right _ _ _ _ (by omega), Nat.add_sub_cancel_left,
        List.getD_cons_succ]
      exact ih k (fun q hq => hk q (List.mem_cons_of_mem r hq)) s' p
        (by simpa using hs) hp d

theorem sum_map_const_len {α : Type} (l : List α) (m : Nat) :
    (l.map fun _ => m).sum = l.length * m := by
  induction l with
  | nil => simp
  | cons a t ih => simp [ih, Nat.succ_mul]; omega

theorem product_columns_length (uids : List Int) (regs : List String) :
    (uids.flatMap fun s => regs.map fun r => (s, r)).length
      = uids.length * regs.length := by
  rw [List.flatMap_def, List.length_flatten, List.map_map]
  have h : (List.length ∘ fun s => regs.map fun r => ((s : Int), r))
      = fun _ => regs.length := funext fun s => by simp
  rw [h, sum_map_const_len]

theorem product_columns_getD (uids : List Int) (regs : List String)
    {si pi : Nat} (hsi : si < uids.length) (hpi : pi < regs.length) :
    (uids.flatMap fun s => regs.map fun r => (s, r)).getD
        (si * regs.length + pi) ((0 : Int), "")
      = (uids.getD si 0, regs.getD pi "") := by
  rw [List.flatMap_def]
  rw [flatten_getD (uids.map _) regs.length
      (fun q hq => by rcases List.mem_map.mp hq with ⟨s, _, rfl⟩; simp)
      si pi (by simpa using hsi) hpi]
  rw [getD_map_of_lt _ hsi _ 0, getD_map_of_lt _ hpi _ ""]

theorem flatten_length_of_shape {α : Type} (draw : List (List α)) (j m : Nat)
    (hj : draw.length = j) (hm : ∀ row ∈ draw, row.length = m) :
    draw.flatten.length = j * m := by
  rw [List.length_flatten]
  have h : draw.map List.length = draw.map fun _ => m := List.map_congr_left hm
  rw [h, sum_map_const_len, hj]

/-! ### State preservation helpers -/

theorem stan_sample_preserves_base (st : HierarchicalStanModel) (signal : List Int)
    (engine : EngineOutcome StanResults) :
    (HierarchicalStanModel.sample st signal engine).state.base = st.base := by
  unfold HierarchicalStanModel.sample
  cases st.base.sample signal with
  | some e => rfl
  | none => cases engine <;> rfl

theorem pymc_sample_preserves_base (st : HierarchicalPymc3Model) (signal : List Int)
    (engine : EngineOutcome PymcResults) :
    (HierarchicalPymc3Model.sample st signal engine).state.base = st.base := by
  unfold HierarchicalPymc3Model.sample
  cases engine <;> rfl

/-! ### The claims -/

/-- C10: constructing a model whose subject-identifier sequence has length
exactly 1 always fails with an indexing error (the identifier array is
squeezed to a 0-dimensional array before the shape check), even when the
design matrix has exactly 1 row, so a valid single-observation dataset can
never be constructed. -/
theorem C10_singleton_subject_ids_index_error (X : DesignMatrix) (s : Int) :
    HierarchicalModel.construct X [s] = .error .indexError := by
  simp [HierarchicalModel.construct]

/-- C3 counterexample: with `subject_ids = [7]` (length 1) and a 2-row design
matrix — a mismatched pair of nonzero lengths — construction fails with an
`IndexError` from the squeeze, not with the `InputShapeError`. -/
theorem C3_counterexample :
    HierarchicalModel.construct ⟨["x0"], [[1], [2]]⟩ [7] ≠ .error .inputShapeError ∧
    HierarchicalModel.construct ⟨["x0"], [[1], [2]]⟩ [7] = .error .indexError :=
  ⟨fun h => Err.noConfusion (Except.error.inj h), rfl⟩

/-- C3 (amended): for every mismatched pair of lengths with
`len(subject_ids) ≥ 2` and `X.row_count ≥ 1`, construction fails with the
`InputShapeError` (whose message is a fixed string that does not name the
expected vs. actual counts); a length-1 identifier sequence instead fails
with an indexing error before the shape check. -/
theorem C3_input_shape_error {X : DesignMatrix} {sids : List Int}
    (h2 : 2 ≤ sids.length) (_hX : 1 ≤ X.nrows) (hne : sids.length ≠ X.nrows) :
    HierarchicalModel.construct X sids = .error .inputShapeError := by
  unfold HierarchicalModel.construct
  rw [if_neg (by omega), if_pos hne]

/-- Witness for C3: a 3-element identifier list against a 2-row matrix. -/
theorem C3_witness :
    HierarchicalModel.construct ⟨["x0"], [[1], [2]]⟩ [3, 4, 5] = .error .inputShapeError :=
  C3_input_shape_error (by decide) (by decide) (by decide)

/-- C2 counterexample: a PyMC3 model constructed on a 2-row design matrix,
sampled with a length-3 signal: the engine is invoked and no
`SignalShapeError` is raised, contradicting the claim for the PyMC3
adapter. -/
theorem C2_counterexample :
    HierarchicalPymc3Model.construct ⟨["x0"], [[1], [2]]⟩ [10, 20]
      = .ok ⟨⟨⟨["x0"], [[1], [2]]⟩, [10, 20], [10, 20], 2, [0, 1]⟩, none⟩ ∧
    (HierarchicalPymc3Model.sample
        ⟨⟨⟨["x0"], [[1], [2]]⟩, [10, 20], [10, 20], 2, [0, 1]⟩, none⟩
        [1, 2, 3] (.success ⟨[[0]]⟩)).invoked.isSome = true ∧
    (HierarchicalPymc3Model.sample
        ⟨⟨⟨["x0"], [[1], [2]]⟩, [10, 20], [10, 20], 2, [0, 1]⟩, none⟩
        [1, 2, 3] (.success ⟨[[0]]⟩)).raised = none :=
  ⟨rfl, rfl, rfl⟩

/-- C2 (amended): only the Stan adapter validates the signal: for a signal of
length ≥ 2 that differs from the design matrix's row count it always fails
with the `SignalShapeError` and the external engine is not invoked (a
length-1 signal instead fails with a `TypeError` from the squeeze).  The
PyMC3 adapter performs no length check: it always invokes the engine and
never raises the `SignalShapeError` itself. -/
theorem C2_signal_shape_check :
    (∀ (st : HierarchicalStanModel) (signal : List Int)
        (engine : EngineOutcome StanResults),
      2 ≤ signal.length → signal.length ≠ st.base.X.nrows →
      (st.sample signal engine).raised = some .signalShapeError ∧
      (st.sample signal engine).invoked = none) ∧
    (∀ (st : HierarchicalPymc3Model) (signal : List Int)
        (engine : EngineOutcome PymcResults),
      (st.sample signal engine).invoked ≠ none ∧
      (st.sample signal engine).raised ≠ some .signalShapeError) := by
  constructor
  · intro st signal engine h2 hne
    have hv : st.base.sample signal = some .signalShapeError := by
      unfold HierarchicalModel.sample
      rw [if_neg (by omega), if_pos hne]
    unfold HierarchicalStanModel.sample
    rw [hv]
    exact ⟨rfl, rfl⟩
  · intro st signal engine
    unfold HierarchicalPymc3Model.sample
    cases engine <;> simp

/-- Witness for C2: the Stan adapter on a 2-row matrix with a length-3
signal raises the shape error without invoking the engine. -/
theorem C2_witness :
    (HierarchicalStanModel.sample
        ⟨⟨⟨["x0"], [[1], [2]]⟩, [10, 20], [10, 20], 2, [0, 1]⟩, none⟩
        [1, 2, 3] .failure).raised = some .signalShapeError ∧
    (HierarchicalStanModel.sample
        ⟨⟨⟨["x0"], [[1], [2]]⟩, [10, 20], [10, 20], 2, [0, 1]⟩, none⟩
        [1, 2, 3] .failure).invoked = none :=
  C2_signal_shape_check.1
    ⟨⟨⟨["x0"], [[1], [2]]⟩, [10, 20], [10, 20], 2, [0, 1]⟩, none⟩
    [1, 2, 3] .failure (by decide) (by decide)

/-- C4: calling any result accessor (`get_subject_traces`, `get_group_traces`,
`get_group_parameters`) on the Stan adapter before a sampling call has
succeeded always fails with the `NotSampledError`: `results` is absent after
construction, stays absent across failed sampling calls (it is assigned only
on success), and while it is absent every accessor raises. -/
theorem C4_not_sampled_error (st : HierarchicalStanModel) (h : st.results = none) :
    st.get_subject_traces = .error .notSampledError ∧
    st.get_group_traces = .error .notSampledError ∧
    st.get_group_parameters = .error .notSampledError ∧
    (∀ (X : DesignMatrix) (sids : List Int) (st0 : HierarchicalStanModel),
      HierarchicalStanModel.construct X sids = .ok st0 → st0.results = none) ∧
    (∀ (signal : List Int) (engine : EngineOutcome StanResults),
      (st.sample signal engine).raised.isSome →
      (st.sample signal engine).state.results = none) := by
  refine ⟨?_, ?_, ?_, ?_, ?_⟩
  · unfold HierarchicalStanModel.get_subject_traces
    rw [h]
  · unfold HierarchicalStanModel.get_group_traces
    rw [h]
  · unfold HierarchicalStanModel.get_group_parameters
    rw [h]
  · intro X sids st0 hc
    unfold HierarchicalStanModel.construct at hc
    cases hcc : HierarchicalModel.construct X sids with
    | error e => rw [hcc] at hc; simp [Except.map] at hc
    | ok b =>
      rw [hcc] at hc
      simp only [Except.map, Except.ok.injEq] at hc
      rw [← hc]
  · intro signal engine hr
    unfold HierarchicalStanModel.sample at hr ⊢
    cases hv : st.base.sample signal with
    | some e => exact h
    | none =>
      cases engine with
      | failure => exact h
      | success r =>
        rw [hv] at hr
        simp at hr

/-- Witness for C4: a freshly constructed Stan adapter state. -/
theorem C4_witness :
    (HierarchicalStanModel.mk
        ⟨⟨["x0"], [[1], [2]]⟩, [10, 20], [10, 20], 2, [0, 1]⟩ none).get_subject_traces
      = .error .notSampledError ∧
    (HierarchicalStanModel.mk
        ⟨⟨["x0"], [[1], [2]]⟩, [10, 20], [10, 20], 2, [0, 1]⟩ none).get_group_traces
      = .error .notSampledError ∧
    (HierarchicalStanModel.mk
        ⟨⟨["x0"], [[1], [2]]⟩, [10, 20], [10, 20], 2, [0, 1]⟩ none).get_group_parameters
      = .error .notSampledError ∧
    (∀ (X : DesignMatrix) (sids : List Int) (st0 : HierarchicalStanModel),
      HierarchicalStanModel.construct X sids = .ok st0 → st0.results = none) ∧
    (∀ (signal : List Int) (engine : EngineOutcome StanResults),
      ((HierarchicalStanModel.mk
          ⟨⟨["x0"], [[1], [2]]⟩, [10, 20], [10, 20], 2, [0, 1]⟩ none).sample
          signal engine).raised.isSome →
      ((HierarchicalStanModel.mk
          ⟨⟨["x0"], [[1], [2]]⟩, [10, 20], [10, 20], 2, [0, 1]⟩ none).sample
          signal engine).state.results = none) :=
  C4_not_sampled_error _ rfl

/-- C9: for every constructed model and every subsequent `sample` call on
either adapter, the design matrix `X`, the subject identifiers, the sorted
unique subject ids, the subject count and the derived subject index keep
their construction-time values (`sample` only ever assigns `results`; the
accessors read state without writing it). -/
theorem C9_construction_fields_immutable :
    (∀ (st : HierarchicalStanModel) (signal : List Int)
        (engine : EngineOutcome StanResults),
      (st.sample signal engine).state.base.X = st.base.X ∧
      (st.sample signal engine).state.base.subject_ids = st.base.subject_ids ∧
      (st.sample signal engine).state.base.unique_subject_ids
        = st.base.unique_subject_ids ∧
      (st.sample signal engine).state.base.n_subjects = st.base.n_subjects ∧
      (st.sample signal engine).state.base.subj_idx = st.base.subj_idx) ∧
    (∀ (st : HierarchicalPymc3Model) (signal : List Int)
        (engine : EngineOutcome PymcResults),
      (st.sample signal engine).state.base.X = st.base.X ∧
      (st.sample signal engine).state.base.subject_ids = st.base.subject_ids ∧
      (st.sample signal engine).state.base.unique_subject_ids
        = st.base.unique_subject_ids ∧
      (st.sample signal engine).state.base.n_subjects = st.base.n_subjects ∧
      (st.sample signal engine).state.base.subj_idx = st.base.subj_idx) := by
  constructor
  · intro st signal engine
    rw [stan_sample_preserves_base]
    exact ⟨rfl, rfl, rfl, rfl, rfl⟩
  · intro st signal engine
    rw [pymc_sample_preserves_base]
    exact ⟨rfl, rfl, rfl, rfl, rfl⟩

/-- C7: for every constructed model, the derived subject index satisfies
`0 ≤ subj_idx[i] < j` for every observation `i` (`subj_idx` holds natural
numbers, so the lower bound is inherent); the invariant is established at
construction and preserved by every later `sample` call on either adapter,
which leave the base fields untouched. -/
theorem C7_subj_idx_invariant {X : DesignMatrix} {sids : List Int}
    {b : HierarchicalModel} (h : HierarchicalModel.construct X sids = .ok b) :
    (∀ i, i < b.subj_idx.length → b.subj_idx.getD i 0 < b.n_subjects) ∧
    (∀ (res : Option StanResults) (signal : List Int)
        (engine : EngineOutcome StanResults),
      (HierarchicalStanModel.sample ⟨b, res⟩ signal engine).state.base = b) ∧
    (∀ (res : Option PymcResults) (signal : List Int)
        (engine : EngineOutcome PymcResults),
      (HierarchicalPymc3Model.sample ⟨b, res⟩ signal engine).state.base = b) := by
  refine ⟨?_, ?_, ?_⟩
  · intro i hi
    exact (construct_subj_idx_getD h hi).1
  · intro res signal engine
    exact stan_sample_preserves_base ⟨b, res⟩ signal engine
  · intro res signal engine
    exact pymc_sample_preserves_base ⟨b, res⟩ signal engine

/-- Witness for C7: the spec's own example, identifiers `[5,1,5,3,1]`. -/
theorem C7_witness :
    (∀ i, i < (HierarchicalModel.mk ⟨["x0"], [[1], [2], [3], [4], [5]]⟩
        [5, 1, 5, 3, 1] [1, 3, 5] 3 [2, 0, 2, 1, 0]).subj_idx.length →
      (HierarchicalModel.mk ⟨["x0"], [[1], [2], [3], [4], [5]]⟩
        [5, 1, 5, 3, 1] [1, 3, 5] 3 [2, 0, 2, 1, 0]).subj_idx.getD i 0
        < (HierarchicalModel.mk ⟨["x0"], [[1], [2], [3], [4], [5]]⟩
            [5, 1, 5, 3, 1] [1, 3, 5] 3 [2, 0, 2, 1, 0]).n_subjects) ∧
    (∀ (res : Option StanResults) (signal : List Int)
        (engine : EngineOutcome StanResults),
      (HierarchicalStanModel.sample
          ⟨HierarchicalModel.mk ⟨["x0"], [[1], [2], [3], [4], [5]]⟩
            [5, 1, 5, 3, 1] [1, 3, 5] 3 [2, 0, 2, 1, 0], res⟩ signal engine).state.base
        = HierarchicalModel.mk ⟨["x0"], [[1], [2], [3], [4], [5]]⟩
            [5, 1, 5, 3, 1] [1, 3, 5] 3 [2, 0, 2, 1, 0]) ∧
    (∀ (res : Option PymcResults) (signal : List Int)
        (engine : EngineOutcome PymcResults),
      (HierarchicalPymc3Model.sample
          ⟨HierarchicalModel.mk ⟨["x0"], [[1], [2], [3], [4], [5]]⟩
            [5, 1, 5, 3, 1] [1, 3, 5] 3 [2, 0, 2, 1, 0], res⟩ signal engine).state.base
        = HierarchicalModel.mk ⟨["x0"], [[1], [2], [3], [4], [5]]⟩
            [5, 1, 5, 3, 1] [1, 3, 5] 3 [2, 0, 2, 1, 0]) :=
  @C7_subj_idx_invariant ⟨["x0"], [[1], [2], [3], [4], [5]]⟩ [5, 1, 5, 3, 1]
    ⟨⟨["x0"], [[1], [2], [3], [4], [5]]⟩, [5, 1, 5, 3, 1],
      [1, 3, 5], 3, [2, 0, 2, 1, 0]⟩ rfl

/-- C1: for every subject-identifier sequence accepted at construction, the
normalizer (`_get_subj_idx`) produces a `unique_subject_ids` that is strictly
ascending with no duplicates, and for every observation `i`,
`unique_subject_ids[subj_idx[i]]` equals `subject_ids[i]`. -/
theorem C1_normalizer_correct {X : DesignMatrix} {sids : List Int}
    {b : HierarchicalModel} (h : HierarchicalModel.construct X sids = .ok b) :
    b.unique_subject_ids.Sorted (· < ·) ∧
    b.unique_subject_ids.Nodup ∧
    ∀ i, i < b.subject_ids.length →
      b.unique_subject_ids.getD (b.subj_idx.getD i 0) 0 = b.subject_ids.getD i 0 := by
  obtain ⟨-, hsub, huniq, -, hidx, -, -⟩ := construct_ok h
  have hsm : b.unique_subject_ids.Sorted (· < ·) := by
    rw [huniq]
    exact sorted_np_sort_unique sids
  refine ⟨hsm, hsm.imp fun hab => ne_of_lt hab, ?_⟩
  intro i hi
  have hi' : i < b.subj_idx.length := by
    rw [hidx, List.length_map, ← hsub]
    exact hi
  exact (construct_subj_idx_getD h hi').2

/-- Witness for C1: the spec's own example, identifiers `[5,1,5,3,1]` over a
5-row design matrix: unique ids `[1,3,5]`, index `[2,0,2,1,0]`. -/
theorem C1_witness :
    ([1, 3, 5] : List Int).Sorted (· < ·) ∧
    ([1, 3, 5] : List Int).Nodup ∧
    ∀ i, i < ([5, 1, 5, 3, 1] : List Int).length →
      ([1, 3, 5] : List Int).getD (([2, 0, 2, 1, 0] : List Nat).getD i 0) 0
        = ([5, 1, 5, 3, 1] : List Int).getD i 0 :=
  @C1_normalizer_correct ⟨["x0"], [[1], [2], [3], [4], [5]]⟩ [5, 1, 5, 3, 1]
    ⟨⟨["x0"], [[1], [2], [3], [4], [5]]⟩, [5, 1, 5, 3, 1],
      [1, 3, 5], 3, [2, 0, 2, 1, 0]⟩ rfl

/-- C8: whenever the Stan adapter's `sample` invokes the backend, the subject
index in the data dictionary is the normalizer's 0-based index shifted by +1
(so every entry lies in `1..j`, the backend's 1-based convention), and the
dictionary carries `n` = X's row count, `j` = subject count, `m` = X's column
count. -/
theorem C8_stan_data_dictionary {X : DesignMatrix} {sids : List Int}
    {b : HierarchicalModel} (h : HierarchicalModel.construct X sids = .ok b)
    {st : HierarchicalStanModel} (hst : st.base = b) {signal : List Int}
    {engine : EngineOutcome StanResults} {d : StanData}
    (hd : (st.sample signal engine).invoked = some d) :
    d.subj_idx = b.subj_idx.map (· + 1) ∧
    (∀ i, i < d.subj_idx.length →
      1 ≤ d.subj_idx.getD i 0 ∧ d.subj_idx.getD i 0 ≤ b.n_subjects) ∧
    d.n = b.X.nrows ∧ d.j = b.n_subjects ∧ d.m = b.X.ncols := by
  have hd' : d = StanData.mk signal (b.subj_idx.map (· + 1))
      b.X.nrows b.n_subjects b.X.ncols b.X.values := by
    unfold HierarchicalStanModel.sample at hd
    rw [hst] at hd
    cases hv : b.sample signal with
    | some e =>
      rw [hv] at hd
      simp at hd
    | none =>
      rw [hv] at hd
      cases engine with
      | failure => exact (Option.some.inj hd).symm
      | success r => exact (Option.some.inj hd).symm
  subst hd'
  refine ⟨rfl, ?_, rfl, rfl, rfl⟩
  intro i hi
  have hi' : i < b.subj_idx.length := by simpa using hi
  have hmap : (b.subj_idx.map (· + 1)).getD i 0 = b.subj_idx.getD i 0 + 1 := by
    have := getD_map_of_lt (fun x => x + 1) hi' 0 0
    simpa using this
  have hlt := (construct_subj_idx_getD h hi').1
  constructor
  · show 1 ≤ (b.subj_idx.map (· + 1)).getD i 0
    rw [hmap]
    omega
  · show (b.subj_idx.map (· + 1)).getD i 0 ≤ b.n_subjects
    rw [hmap]
    omega

/-- Witness for C8: a 2-subject, 1-predictor model sampled with a valid
length-2 signal; the engine call fails, but the data handed to it is fixed. -/
theorem C8_witness :
    (StanData.mk [1, 2] [1, 2] 2 2 1 [[1], [2]]).subj_idx
        = ([0, 1] : List Nat).map (· + 1) ∧
    (∀ i, i < (StanData.mk [1, 2] [1, 2] 2 2 1 [[1], [2]]).subj_idx.length →
      1 ≤ (StanData.mk [1, 2] [1, 2] 2 2 1 [[1], [2]]).subj_idx.getD i 0 ∧
      (StanData.mk [1, 2] [1, 2] 2 2 1 [[1], [2]]).subj_idx.getD i 0 ≤ 2) ∧
    (StanData.mk [1, 2] [1, 2] 2 2 1 [[1], [2]]).n
        = (DesignMatrix.mk ["x0"] [[1], [2]]).nrows ∧
    (StanData.mk [1, 2] [1, 2] 2 2 1 [[1], [2]]).j = 2 ∧
    (StanData.mk [1, 2] [1, 2] 2 2 1 [[1], [2]]).m
        = (DesignMatrix.mk ["x0"] [[1], [2]]).ncols :=
  @C8_stan_data_dictionary ⟨["x0"], [[1], [2]]⟩ [10, 20]
    ⟨⟨["x0"], [[1], [2]]⟩, [10, 20], [10, 20], 2, [0, 1]⟩ rfl
    ⟨⟨⟨["x0"], [[1], [2]]⟩, [10, 20], [10, 20], 2, [0, 1]⟩, none⟩ rfl
    [1, 2] (.failure)
    ⟨[1, 2], [1, 2], 2, 2, 1, [[1], [2]]⟩ rfl

/-- C5: for every sampled model, converting the wide subject-trace table (or
group-trace table) to its long (melted) form preserves every numeric value
exactly: the multiset of entries of the long form's value column equals the
multiset of cell values of the wide table (a `List.Perm`), with no
aggregation or numeric change. -/
theorem C5_melt_preserves_values (st : HierarchicalStanModel) (res : StanResults)
    (h : st.results = some res)
    (hshape : ∀ draw ∈ res.beta_subject,
      draw.length = st.base.unique_subject_ids.length ∧
      ∀ row ∈ draw, row.length = st.base.X.colNames.length)
    (hg : ∀ draw ∈ res.beta_group, draw.length = st.base.X.colNames.length) :
    ∃ dfS dfG,
      st.get_subject_traces = .ok dfS ∧
      st.get_group_traces = .ok dfG ∧
      List.Perm ((pd_melt dfS).map Prod.snd) dfS.values.flatten ∧
      List.Perm ((pd_melt dfG).map Prod.snd) dfG.values.flatten := by
  refine ⟨⟨st.base.unique_subject_ids.flatMap fun s =>
        st.base.X.colNames.map fun r => (s, r),
      res.beta_subject.map List.flatten⟩,
    ⟨st.base.X.colNames, res.beta_group⟩, ?_, ?_, ?_, ?_⟩
  · unfold HierarchicalStanModel.get_subject_traces
    rw [h]
  · unfold HierarchicalStanModel.get_group_traces
    rw [h]
  · apply pd_melt_values_perm
    intro r hr
    rcases List.mem_map.mp hr with ⟨draw, hdraw, rfl⟩
    show draw.flatten.length
      = (st.base.unique_subject_ids.flatMap fun s =>
          st.base.X.colNames.map fun r => (s, r)).length
    rw [product_columns_length]
    exact flatten_length_of_shape draw _ _ (hshape draw hdraw).1 (hshape draw hdraw).2
  · apply pd_melt_values_perm
    intro r hr
    exact hg r hr

/-- Witness for C5: two draws over two subjects and two regressors. -/
theorem C5_witness :
    ∃ (dfS : DataFrame (Int × String) Int) (dfG : DataFrame String Int),
      (HierarchicalStanModel.mk
          ⟨⟨["x0", "x1"], [[1, 2], [3, 4]]⟩, [10, 20], [10, 20], 2, [0, 1]⟩
          (some ⟨[[[1, 2], [3, 4]], [[5, 6], [7, 8]]],
            [[1, 2], [9, 9]]⟩)).get_subject_traces = .ok dfS ∧
      (HierarchicalStanModel.mk
          ⟨⟨["x0", "x1"], [[1, 2], [3, 4]]⟩, [10, 20], [10, 20], 2, [0, 1]⟩
          (some ⟨[[[1, 2], [3, 4]], [[5, 6], [7, 8]]],
            [[1, 2], [9, 9]]⟩)).get_group_traces = .ok dfG ∧
      List.Perm ((pd_melt dfS).map Prod.snd) dfS.values.flatten ∧
      List.Perm ((pd_melt dfG).map Prod.snd) dfG.values.flatten :=
  C5_melt_preserves_values
    (HierarchicalStanModel.mk
      ⟨⟨["x0", "x1"], [[1, 2], [3, 4]]⟩, [10, 20], [10, 20], 2, [0, 1]⟩
      (some ⟨[[[1, 2], [3, 4]], [[5, 6], [7, 8]]], [[1, 2], [9, 9]]⟩))
    ⟨[[[1, 2], [3, 4]], [[5, 6], [7, 8]]], [[1, 2], [9, 9]]⟩
    rfl (by decide) (by decide)

/-- C6: after a successful sampling call with `j` subjects and `m`
predictors, `get_subject_traces` returns a table with exactly `j·m` columns —
one per `(subject_id, predictor_name)` pair, ordered subject-major over the
sorted unique subject ids crossed with the design-matrix column order — and
one row per retained draw, where the cell at draw `dr` and pair `(s, p)` is
exactly the raw `beta_subject` draw for subject rank `s` and predictor index
`p`. -/
theorem C6_subject_traces_layout {X : DesignMatrix} {sids : List Int}
    {b : HierarchicalModel} (hb : HierarchicalModel.construct X sids = .ok b)
    (res : StanResults)
    (hshape : ∀ draw ∈ res.beta_subject,
      draw.length = b.n_subjects ∧ ∀ row ∈ draw, row.length = b.X.ncols) :
    ∃ df, HierarchicalStanModel.get_subject_traces ⟨b, some res⟩ = .ok df ∧
      df.columns.length = b.n_subjects * b.X.ncols ∧
      df.values.length = res.beta_subject.length ∧
      (∀ s p, s < b.n_subjects → p < b.X.ncols →
        df.columns.getD (s * b.X.ncols + p) (0, "")
          = (b.unique_subject_ids.getD s 0, b.X.colNames.getD p "")) ∧
      (∀ dr s p, dr < res.beta_subject.length → s < b.n_subjects → p < b.X.ncols →
        (df.values.getD dr []).getD (s * b.X.ncols + p) 0
          = ((res.beta_subject.getD dr []).getD s []).getD p 0) := by
  obtain ⟨-, -, huniq, hn, -, -, -⟩ := construct_ok hb
  have hul : b.unique_subject_ids.length = b.n_subjects := by rw [huniq, hn]
  refine ⟨⟨b.unique_subject_ids.flatMap fun s => b.X.colNames.map fun r => (s, r),
      res.beta_subject.map List.flatten⟩, rfl, ?_, ?_, ?_, ?_⟩
  · show (b.unique_subject_ids.flatMap fun s =>
        b.X.colNames.map fun r => (s, r)).length = b.n_subjects * b.X.ncols
    rw [product_columns_length, hul]
    rfl
  · simp
  · intro s p hs hp
    have hs' : s < b.unique_subject_ids.length := by rw [hul]; exact hs
    have hp' : p < b.X.colNames.length := hp
    exact product_columns_getD b.unique_subject_ids b.X.colNames hs' hp'
  · intro dr s p hdr hs hp
    have h1 : ((res.beta_subject.map List.flatten).getD dr [])
        = (res.beta_subject.getD dr []).flatten := by
      have := getD_map_of_lt List.flatten hdr ([] : List Int) ([] : List (List Int))
      simpa using this
    show ((res.beta_subject.map List.flatten).getD dr []).getD (s * b.X.ncols + p) 0
      = ((res.beta_subject.getD dr []).getD s []).getD p 0
    rw [h1]
    have hdm : res.beta_subject.getD dr [] ∈ res.beta_subject := by
      rw [List.getD_eq_getElem _ _ hdr]
      exact List.getElem_mem hdr
    have hsh := hshape _ hdm
    exact flatten_getD (res.beta_subject.getD dr []) b.X.ncols hsh.2 s p
      (by rw [hsh.1]; exact hs) hp 0

/-- Witness for C6: two draws over two subjects and two regressors. -/
theorem C6_witness :
    ∃ df, HierarchicalStanModel.get_subject_traces
        ⟨⟨⟨["x0", "x1"], [[1, 2], [3, 4]]⟩, [10, 20], [10, 20], 2, [0, 1]⟩,
          some ⟨[[[1, 2], [3, 4]], [[5, 6], [7, 8]]], [[1, 2], [9, 9]]⟩⟩ = .ok df ∧
      df.columns.length = 2 * 2 ∧
      df.values.length = ([[[1, 2], [3, 4]], [[5, 6], [7, 8]]]
        : List (List (List Int))).length ∧
      (∀ s p, s < 2 → p < 2 →
        df.columns.getD (s * 2 + p) (0, "")
          = (([10, 20] : List Int).getD s 0, (["x0", "x1"]).getD p "")) ∧
      (∀ dr s p, dr < ([[[1, 2], [3, 4]], [[5, 6], [7, 8]]]
            : List (List (List Int))).length → s < 2 → p < 2 →
        (df.values.getD dr []).getD (s * 2 + p) 0
          = ((([[[1, 2], [3, 4]], [[5, 6], [7, 8]]]
              : List (List (List Int))).getD dr []).getD s []).getD p 0) :=
  @C6_subject_traces_layout ⟨["x0", "x1"], [[1, 2], [3, 4]]⟩ [10, 20]
    ⟨⟨["x0", "x1"], [[1, 2], [3, 4]]⟩, [10, 20], [10, 20], 2, [0, 1]⟩
    rfl ⟨[[[1, 2], [3, 4]], [[5, 6], [7, 8]]], [[1, 2], [9, 9]]⟩ (by decide)
